import Mathlib

set_option maxHeartbeats 1000000

/-!
Shallow embedding of `src/duck-js.ts`: a signal-based reactivity engine
consisting of `EffectStack` (a global stack of running callbacks), `signal`
(a mutable reactive cell), `computed` (a cached derived cell), `effect`
(subscriber registration) and `createApp` (the render scheduler).

Callback closures are represented by identifiers (`CbId`) whose bodies live
in an environment (`Env`); the engine state (`St`) holds every signal's
value and subscriber set, every computed's cache, staleness flag and
subscriber set, the global effect stack, the mount target's contents and
the number of queued microtasks.  A fuel parameter turns the mutually
recursive JS call graph into a total function `step`; the `trace` field is
ghost instrumentation recording callback invocations and recomputations —
no control flow ever reads it.

JS `Set` iteration semantics are modelled faithfully: the subscriber set is
an insertion-ordered duplicate-free list, and `forEach` (the `Call.notify`
case of `step`) iterates it by increasing index re-reading the live list at
every step, so elements appended during the iteration are visited too, as
ECMA-262 prescribes for `Set.prototype.forEach`.  A thrown JS exception is
the `Res.exn` result and propagates through every construct that does not
catch it (nothing in this engine catches).
-/

/-- Identity of a callback closure: user effect callback number `n`, the
private `markStale` closure of computed cell `c`, or `createApp`'s
`renderApp` closure. -/
inductive CbId
  | eff (n : Nat)
  | mark (c : Nat)
  | renderApp
  deriving DecidableEq, Repr

/-- Ghost trace events: a callback body was invoked, or a computed cell's
computation function was run (a recomputation). -/
inductive Ev
  | invoke (cb : CbId)
  | compute (c : Nat)
  deriving DecidableEq, Repr

/-- Result of running a fragment of the engine: a normal return value, a
propagating JS exception, or fuel exhaustion of the interpreter. -/
inductive Res
  | ok (v : Nat)
  | exn
  | out
  deriving DecidableEq, Repr

/-- User-side callback code: the fragment of JS needed to express the
bodies of effect callbacks and computed computation functions in the demo
and tests (signal/computed reads and writes, sequencing, arithmetic,
branching, nested `effect` registration, and throwing). -/
inductive Code
  | lit (n : Nat)
  | getS (s : Nat)
  | getC (c : Nat)
  | setS (s : Nat) (e : Code)
  | seq (a b : Code)
  | add (a b : Code)
  | mul (a b : Code)
  | ite0 (c t e : Code)
  | runEff (n : Nat)
  | throwErr
  deriving DecidableEq, Repr

/-- A reactive cell (`signal` in `duck-js.ts`): the current value and the
insertion-ordered subscriber set (`dependencies` in the source). -/
structure Sig where
  value : Nat
  subs : List CbId
  deriving DecidableEq, Repr

/-- A derived cell (`computed` in `duck-js.ts`): the cache (`cached`, absent
until first computed), the staleness flag (`isStale`, initially true) and
the insertion-ordered subscriber set (`dependencies` in the source). -/
structure Comp where
  cached : Option Nat
  stale : Bool
  subs : List CbId
  deriving DecidableEq, Repr

/-- Initial state of a derived cell at construction: `let cached: T` leaves
the cache absent and `let isStale = true` marks it stale; the subscriber
set starts empty.  The computation function is not invoked. -/
def Comp.init : Comp := ⟨none, true, []⟩

/-- The whole engine state: signals, computeds, the global `EffectStack`,
the ghost trace, `createApp`'s `firstRender` flag, the number of pending
render microtasks, and the mount target's contents (`root.innerHTML`). -/
structure St where
  sigs : List Sig
  comps : List Comp
  stack : List CbId
  trace : List Ev
  firstRender : Bool
  pending : Nat
  dom : String
  deriving DecidableEq, Repr

/-- Environment fixing the program under test: the body of each user effect
callback, the computation function of each computed cell, and the ids of
the cells read by the demo's render function (`count` and `double`). -/
structure Env where
  effBody : Nat → Code
  compBody : Nat → Code
  countId : Nat
  doubleId : Nat

namespace EffectStack

/-- Translation of `EffectStack.push`: `this.stack.push(effect)`.  The JS
array grows at its end; we keep the most recent element at the head of the
list, so push is cons, peek is `head?` and pop removes the head. -/
def push (e : CbId) (stack : List CbId) : List CbId := e :: stack

/-- Translation of `EffectStack.pop`: `return this.stack.pop()`.  JS
`Array.prototype.pop` on an empty array returns `undefined` and leaves the
array unchanged; on a non-empty array it removes and returns the most
recent element. -/
def pop (stack : List CbId) : Option CbId × List CbId :=
  match stack with
  | [] => (none, [])
  | e :: rest => (some e, rest)

/-- Translation of `EffectStack.peek`: `return this.stack[this.stack.length - 1]`,
which is `undefined` on an empty array. -/
def peek (stack : List CbId) : Option CbId := stack.head?

end EffectStack

/-- Signal at index `i` (indices out of range yield an inert default; the
programs under test only reference constructed cells). -/
def St.sig (st : St) (i : Nat) : Sig := st.sigs.getD i ⟨0, []⟩

/-- Computed cell at index `i`. -/
def St.comp (st : St) (i : Nat) : Comp := st.comps.getD i Comp.init

def St.setSigAt (st : St) (i : Nat) (g : Sig) : St := { st with sigs := st.sigs.set i g }

def St.setCompAt (st : St) (i : Nat) (c : Comp) : St := { st with comps := st.comps.set i c }

def St.push (st : St) (cb : CbId) : St := { st with stack := EffectStack.push cb st.stack }

/-- Discard the top of the effect stack via `EffectStack.pop` (a no-op on an
empty stack, as in JS). -/
def St.popJS (st : St) : St := { st with stack := (EffectStack.pop st.stack).2 }

/-- Ghost: append a trace event. -/
def St.addTrace (st : St) (e : Ev) : St := { st with trace := st.trace ++ [e] }

/-- Translation of `dependencies.add(currentEffect)` on a JS `Set`: append
at the end unless already present (insertion order, no duplicates). -/
def Sig.addSub (g : Sig) (cb : CbId) : Sig :=
  if cb ∈ g.subs then g else { g with subs := g.subs ++ [cb] }

/-- Same as `Sig.addSub`, for a derived cell's subscriber set. -/
def Comp.addSub (c : Comp) (cb : CbId) : Comp :=
  if cb ∈ c.subs then c else { c with subs := c.subs ++ [cb] }

/-- Conditional subscriber registration `if (currentEffect) dependencies.add(...)`
on signal `i`. -/
def St.addSubS (st : St) (i : Nat) : Option CbId → St
  | none => st
  | some cb => st.setSigAt i ((st.sig i).addSub cb)

/-- Conditional subscriber registration on computed cell `i`. -/
def St.addSubC (st : St) (i : Nat) : Option CbId → St
  | none => st
  | some cb => st.setCompAt i ((st.comp i).addSub cb)

/-- Translation of `signal.get`: peek the `EffectStack`; if there is a
current effect, add it to this signal's subscriber set; return the value. -/
def signalGet (s : Nat) (st : St) : Nat × St :=
  ((st.sig s).value, st.addSubS s (EffectStack.peek st.stack))

/-- The first statement of `markStale`: `isStale = true`. -/
def St.markStaleAt (st : St) (c : Nat) : St :=
  st.setCompAt c { st.comp c with stale := true }

/-- Sequencing of engine fragments under JS exception propagation: run the
continuation only on a normal return; let an exception (or fuel exhaustion)
propagate with the state it left behind, exactly as an uncaught JS `throw`
does. -/
def Res.bind (p : St × Res) (k : St → Nat → St × Res) : St × Res :=
  match p with
  | (st, .ok v) => k st v
  | r => r

/-- The demo component's rendered output (`app.ts` / the spec's render
scenario). -/
def renderStr (c d : Nat) : String :=
  "Count is " ++ toString c ++ " and double is " ++ toString d

/-- The call kinds of the engine's mutually recursive JS call graph:
evaluating user code, invoking a callback closure, the live `Set.forEach`
notification loop over the subscribers of a cell (`.notify (.sig s)` /
`.notify (.comp c)` from index `i`), `computed.get`, `signal.set`,
`effect` registration (also used by `createApp` for `renderApp`), the
render function of the demo component, and draining the microtask queue. -/
inductive CellRef
  | sig (i : Nat)
  | comp (i : Nat)
  deriving DecidableEq, Repr

def subsOf (st : St) : CellRef → List CbId
  | .sig i => (st.sig i).subs
  | .comp i => (st.comp i).subs

inductive Call
  | eval (c : Code)
  | getCmp (c : Nat)
  | setSig (s : Nat) (v : Nat)
  | invoke (cb : CbId)
  | notify (r : CellRef) (i : Nat)
  | runE (cb : CbId)
  | render
  | drain
  deriving DecidableEq, Repr

/-- The engine interpreter.  Each case is a direct translation of the
corresponding function in `duck-js.ts`:

* `.setSig s v` — `signal.set`: store the new value unconditionally (no
  equality check in the source), then `dependencies.forEach((effect) => effect())`.
* `.notify r i` — the `forEach` loop: look up the *current* subscriber list
  of the cell, invoke element `i`, continue with `i+1`; stop when the index
  reaches the current length.  An exception aborts the loop and propagates.
* `.getCmp c` — `computed.get`: capture `currentEffect := peek()`; if not
  stale, register `currentEffect` and return the cache; if stale, push
  `markStale`, run the computation function, pop, store the result, register
  `currentEffect`, clear the flag and return.  A throwing computation skips
  the pop and the cache update, exactly as the JS `try`-less source does.
* `.invoke cb` — calling a closure: an effect callback runs its body; the
  `markStale` closure sets `isStale = true` and then notifies the derived
  cell's own subscribers unconditionally; `renderApp` renders inline on the
  first run and afterwards only queues a microtask.
* `.runE cb` — `effect`: push the callback, run it, and pop only after a
  normal return (the source has no `try`/`finally`, so a throwing callback
  leaves its entry on the stack).
* `.render` — the demo component's render function: read `count`, read
  `double`, write the rendered string to the mount target.
* `.drain` — run queued render microtasks in FIFO order until none remain. -/
def step : Nat → Env → Call → St → St × Res
  | 0, _, _, st => (st, .out)
  | f + 1, env, call, st =>
    match call with
    | .eval code =>
      match code with
      | .lit n => (st, .ok n)
      | .getS s => ((signalGet s st).2, .ok (signalGet s st).1)
      | .getC c => step f env (.getCmp c) st
      | .setS s e =>
        Res.bind (step f env (.eval e) st) fun st1 v =>
          Res.bind (step f env (.setSig s v) st1) fun st2 _ => (st2, .ok v)
      | .seq a b =>
        Res.bind (step f env (.eval a) st) fun st1 _ => step f env (.eval b) st1
      | .add a b =>
        Res.bind (step f env (.eval a) st) fun st1 va =>
          Res.bind (step f env (.eval b) st1) fun st2 vb => (st2, .ok (va + vb))
      | .mul a b =>
        Res.bind (step f env (.eval a) st) fun st1 va =>
          Res.bind (step f env (.eval b) st1) fun st2 vb => (st2, .ok (va * vb))
      | .ite0 c t e =>
        Res.bind (step f env (.eval c) st) fun st1 v =>
          if v = 0 then step f env (.eval t) st1 else step f env (.eval e) st1
      | .runEff n => step f env (.runE (.eff n)) st
      | .throwErr => (st, .exn)
    | .getCmp c =>
      let curEff := EffectStack.peek st.stack
      if (st.comp c).stale = false then
        (st.addSubC c curEff, .ok ((st.comp c).cached.getD 0))
      else
        Res.bind
          (step f env (.eval (env.compBody c)) ((st.push (.mark c)).addTrace (.compute c)))
          fun st1 v =>
            ((st1.popJS.setCompAt c
              { st1.popJS.comp c with cached := some v, stale := false }).addSubC c curEff,
             .ok v)
    | .setSig s v =>
      step f env (.notify (.sig s) 0) (st.setSigAt s { st.sig s with value := v })
    | .invoke cb =>
      let st1 := st.addTrace (.invoke cb)
      match cb with
      | .eff n =>
        Res.bind (step f env (.eval (env.effBody n)) st1) fun st2 _ => (st2, .ok 0)
      | .mark c => step f env (.notify (.comp c) 0) (st1.markStaleAt c)
      | .renderApp =>
        if st1.firstRender then
          Res.bind (step f env .render st1) fun st2 _ =>
            ({ st2 with firstRender := false }, .ok 0)
        else ({ st1 with pending := st1.pending + 1 }, .ok 0)
    | .notify r i =>
      if h : i < (subsOf st r).length then
        Res.bind (step f env (.invoke ((subsOf st r).get ⟨i, h⟩)) st) fun st1 _ =>
          step f env (.notify r (i + 1)) st1
      else (st, .ok 0)
    | .runE cb =>
      Res.bind (step f env (.invoke cb) (st.push cb)) fun st1 _ => (st1.popJS, .ok 0)
    | .render =>
      Res.bind (step f env (.getCmp env.doubleId) (signalGet env.countId st).2)
        fun st2 d => ({ st2 with dom := renderStr (signalGet env.countId st).1 d }, .ok 0)
    | .drain =>
      if st.pending = 0 then (st, .ok 0)
      else
        Res.bind (step f env .render { st with pending := st.pending - 1 }) fun st1 _ =>
          step f env .drain st1

/-- Top-level actions a test scenario performs against the engine. -/
inductive Act
  | runE (n : Nat)
  | set (s v : Nat)
  | readC (c : Nat)
  | bindApp
  | drain
  deriving DecidableEq, Repr

def Act.call : Act → Call
  | .runE n => .runE (.eff n)
  | .set s v => .setSig s v
  | .readC c => .getCmp c
  | .bindApp => .runE .renderApp
  | .drain => .drain

/-- Fuel budget for one top-level action; ample for every scenario here. -/
def actFuel : Nat := 40

def runAct (env : Env) (st : St) (a : Act) : St := (step actFuel env a.call st).1

def runActs (env : Env) (acts : List Act) (st : St) : St := acts.foldl (runAct env) st

/-- Fresh engine state over given signal initial values and a number of
derived cells: empty subscriber sets, every derived cell stale with no
cached value, empty effect stack, nothing rendered, nothing queued. -/
def St.init (sigVals : List Nat) (nComps : Nat) : St :=
  ⟨sigVals.map (fun v => ⟨v, []⟩), List.replicate nComps Comp.init, [], [], true, 0, ""⟩

example :
    (runActs ⟨fun _ => .getS 0, fun _ => .lit 0, 0, 0⟩ [.runE 0, .set 0 5]
      (St.init [1] 0)).trace =
    [.invoke (.eff 0), .invoke (.eff 0)] := by decide

/-! ### Scenario environments -/

/-- Environment for the failing-subscriber scenarios: effect callback 0 and
computed 0 both throw. -/
def envThrow : Env := ⟨fun _ => .throwErr, fun _ => .throwErr, 0, 0⟩

/-- Environment for the mid-notification-subscription scenario: callback 0
reads signal 0 and, when its value is non-zero, registers callback 1 as a
new effect; callback 1 reads signal 0. -/
def envMid : Env :=
  ⟨fun n => match n with
    | 0 => .ite0 (.getS 0) (.lit 0) (.runEff 1)
    | _ => .getS 0,
   fun _ => .lit 0, 0, 0⟩

/-- Environment for the dependency-rediscovery scenario: callback 0 reads
signal 0, and reads signal 1 only when signal 0 is non-zero. -/
def envCond : Env :=
  ⟨fun n => match n with
    | 0 => .ite0 (.getS 0) (.lit 0) (.seq (.getS 1) (.lit 0))
    | _ => .lit 0,
   fun _ => .lit 0, 0, 0⟩

/-- Environment with one derived cell `D = signal0 * 2` (the spec's
`double = derived(() => count.read() * 2)`), also used as the demo
component of the render scenario with `count = signal 0`. -/
def envDouble : Env := ⟨fun _ => .lit 0, fun _ => .mul (.getS 0) (.lit 2), 0, 0⟩

/-- Environment for the identical-value-write scenario: callback 0 reads
signal 0. -/
def envRead : Env := ⟨fun _ => .getS 0, fun _ => .lit 0, 0, 0⟩

/-- Environment for the staleness-propagation chain: computed 0 reads
signal 0, computed 1 reads computed 0. -/
def envChain : Env :=
  ⟨fun _ => .lit 0,
   fun c => match c with
    | 0 => .getS 0
    | _ => .getC 0,
   0, 0⟩

example :
    (runActs envMid [.runE 0, .set 0 1] (St.init [0] 0)).trace =
    [.invoke (.eff 0), .invoke (.eff 0), .invoke (.eff 1), .invoke (.eff 1)] := by
  decide

example :
    ((runActs envMid [.runE 0, .set 0 1] (St.init [0] 0)).sig 0).subs =
    [.eff 0, .eff 1] := by decide

example :
    ((runActs envCond [.runE 0, .set 0 1, .set 1 7] (St.init [0, 5] 0)).sig 1).subs
      = [] := by decide

example :
    (runActs envCond [.runE 0, .set 0 1, .set 1 7] (St.init [0, 5] 0)).trace =
    [.invoke (.eff 0), .invoke (.eff 0)] := by decide

example :
    (runActs envChain [.readC 1, .set 0 1, .set 0 2] (St.init [0] 2)).trace =
    [.compute 1, .compute 0, .invoke (.mark 0), .invoke (.mark 1),
     .invoke (.mark 0), .invoke (.mark 1)] := by decide

example :
    (runActs envDouble [.bindApp] (St.init [0] 1)).dom =
    "Count is 0 and double is 0" := by decide

example :
    (runActs envDouble [.bindApp, .set 0 1] (St.init [0] 1)).dom =
    "Count is 0 and double is 0" := by decide

example :
    (runActs envDouble [.bindApp, .set 0 1] (St.init [0] 1)).pending = 2 := by
  decide

example :
    (runActs envDouble [.bindApp, .set 0 1, .drain] (St.init [0] 1)).dom =
    "Count is 1 and double is 2" := by decide

example :
    (step 10 envThrow (.runE (.eff 0)) (St.init [] 0)) =
    (((St.init [] 0).push (.eff 0)).addTrace (.invoke (.eff 0)), .exn) := by decide

example :
    ((step 10 envThrow (.runE (.eff 0)) (St.init [] 0)).1.stack = [.eff 0]) := by
  decide

example :
    ((step 10 envThrow (.getCmp 0) (St.init [] 1)).1.stack = [.mark 0]) := by
  decide

/-! ### Projection lemmas for the state helpers -/

theorem St.addSubS_stack (st : St) (i : Nat) (o : Option CbId) :
    (st.addSubS i o).stack = st.stack := by
  cases o <;> rfl

theorem St.addSubC_stack (st : St) (i : Nat) (o : Option CbId) :
    (st.addSubC i o).stack = st.stack := by
  cases o <;> rfl

theorem St.addSubS_comps (st : St) (i : Nat) (o : Option CbId) :
    (st.addSubS i o).comps = st.comps := by
  cases o <;> rfl

theorem signalGet_state (s : Nat) (st : St) :
    (signalGet s st).2 = st.addSubS s (EffectStack.peek st.stack) := rfl

/-- The cache invariant of a derived cell: whenever the staleness flag is
false, a cached value is present. -/
def CacheInv (st : St) : Prop :=
  ∀ cmp ∈ st.comps, cmp.stale = false → cmp.cached.isSome

instance (st : St) : Decidable (CacheInv st) := by
  unfold CacheInv
  infer_instance

theorem cacheInv_comp {st : St} (h : CacheInv st) (c : Nat)
    (hs : (st.comp c).stale = false) : (st.comp c).cached.isSome := by
  unfold St.comp at hs ⊢
  by_cases hc : c < st.comps.length
  · rw [List.getD_eq_getElem?_getD, List.getElem?_eq_getElem hc] at hs ⊢
    exact h _ (List.getElem_mem hc) hs
  · rw [List.getD_eq_getElem?_getD, List.getElem?_eq_none (Nat.le_of_not_lt hc)] at hs
    simp [Comp.init] at hs

theorem cacheInv_of_comps_eq {st st2 : St} (he : st2.comps = st.comps)
    (h : CacheInv st) : CacheInv st2 := by
  intro x hx
  rw [he] at hx
  exact h x hx

theorem cacheInv_setCompAt {st : St} (h : CacheInv st) {cmp : Comp} (i : Nat)
    (hc : cmp.stale = false → cmp.cached.isSome) : CacheInv (st.setCompAt i cmp) := by
  intro x hx
  rcases List.mem_or_eq_of_mem_set hx with hx2 | rfl
  · exact h x hx2
  · exact hc

theorem cacheInv_addSubC {st : St} (h : CacheInv st) (i : Nat) (o : Option CbId) :
    CacheInv (st.addSubC i o) := by
  cases o with
  | none => exact h
  | some cb =>
    refine cacheInv_setCompAt h i ?_
    have h1 : ((st.comp i).addSub cb).stale = (st.comp i).stale := by
      unfold Comp.addSub; split <;> rfl
    have h2 : ((st.comp i).addSub cb).cached = (st.comp i).cached := by
      unfold Comp.addSub; split <;> rfl
    intro hs
    rw [h2]
    exact cacheInv_comp h i (h1 ▸ hs)

theorem cacheInv_markStaleAt {st : St} (h : CacheInv st) (c : Nat) :
    CacheInv (st.markStaleAt c) := by
  refine cacheInv_setCompAt h c ?_
  intro hs
  simp at hs

theorem Res.bind_inv {p : St × Res} {k : St → Nat → St × Res}
    (hp : CacheInv p.1) (hk : ∀ v, p.2 = .ok v → CacheInv (k p.1 v).1) :
    CacheInv (Res.bind p k).1 := by
  rcases p with ⟨st1, r⟩
  cases r with
  | ok v => exact hk v rfl
  | exn => exact hp
  | out => exact hp

/-- Any engine execution preserves the cache invariant. -/
theorem step_cacheInv (f : Nat) : ∀ (env : Env) (call : Call) (st : St),
    CacheInv st → CacheInv (step f env call st).1 := by
  induction f with
  | zero => intro env call st h; simpa [step] using h
  | succ f ih =>
    intro env call st h
    cases call with
    | eval code =>
      cases code with
      | lit n => simpa [step] using h
      | getS s =>
        simp only [step]
        exact cacheInv_of_comps_eq (by rw [signalGet_state, St.addSubS_comps]) h
      | getC c =>
        simp only [step]
        exact ih env (.getCmp c) st h
      | setS s e =>
        simp only [step]
        refine Res.bind_inv (ih env (.eval e) st h) fun v hv => ?_
        exact Res.bind_inv (ih env (.setSig s v) _ (ih env (.eval e) st h))
          fun w hw => ih env (.setSig s v) _ (ih env (.eval e) st h)
      | seq a b =>
        simp only [step]
        exact Res.bind_inv (ih env (.eval a) st h)
          fun v hv => ih env (.eval b) _ (ih env (.eval a) st h)
      | add a b =>
        simp only [step]
        refine Res.bind_inv (ih env (.eval a) st h) fun v hv => ?_
        exact Res.bind_inv (ih env (.eval b) _ (ih env (.eval a) st h))
          fun w hw => ih env (.eval b) _ (ih env (.eval a) st h)
      | mul a b =>
        simp only [step]
        refine Res.bind_inv (ih env (.eval a) st h) fun v hv => ?_
        exact Res.bind_inv (ih env (.eval b) _ (ih env (.eval a) st h))
          fun w hw => ih env (.eval b) _ (ih env (.eval a) st h)
      | ite0 c t e =>
        simp only [step]
        refine Res.bind_inv (ih env (.eval c) st h) fun v hv => ?_
        by_cases hv0 : v = 0
        · rw [if_pos hv0]
          exact ih env (.eval t) _ (ih env (.eval c) st h)
        · rw [if_neg hv0]
          exact ih env (.eval e) _ (ih env (.eval c) st h)
      | runEff n =>
        simp only [step]
        exact ih env (.runE (.eff n)) st h
      | throwErr => simpa [step] using h
    | getCmp c =>
      simp only [step]
      by_cases hs : (st.comp c).stale = false
      · rw [if_pos hs]
        exact cacheInv_addSubC h c _
      · rw [if_neg hs]
        have h1 : CacheInv ((st.push (.mark c)).addTrace (.compute c)) :=
          cacheInv_of_comps_eq rfl h
        refine Res.bind_inv (ih env _ _ h1) fun v hv => ?_
        refine cacheInv_addSubC ?_ c _
        refine cacheInv_setCompAt ?_ c ?_
        · exact cacheInv_of_comps_eq rfl (ih env _ _ h1)
        · intro hs2; rfl
    | setSig s v =>
      simp only [step]
      exact ih env _ _ (cacheInv_of_comps_eq rfl h)
    | invoke cb =>
      simp only [step]
      cases cb with
      | eff n =>
        refine Res.bind_inv (ih env _ _ (cacheInv_of_comps_eq rfl h)) fun v hv => ?_
        exact ih env _ _ (cacheInv_of_comps_eq rfl h)
      | mark c =>
        exact ih env _ _ (cacheInv_markStaleAt (cacheInv_of_comps_eq rfl h) c)
      | renderApp =>
        by_cases hf : (st.addTrace (.invoke .renderApp)).firstRender
        · rw [if_pos hf]
          refine Res.bind_inv (ih env .render _ (cacheInv_of_comps_eq rfl h)) fun v hv => ?_
          exact cacheInv_of_comps_eq rfl (ih env .render _ (cacheInv_of_comps_eq rfl h))
        · rw [if_neg hf]
          exact cacheInv_of_comps_eq rfl h
    | notify r i =>
      simp only [step]
      by_cases hi : i < (subsOf st r).length
      · rw [dif_pos hi]
        exact Res.bind_inv (ih env _ _ h) fun v hv => ih env _ _ (ih env _ _ h)
      · rw [dif_neg hi]
        exact h
    | runE cb =>
      simp only [step]
      refine Res.bind_inv (ih env _ _ (cacheInv_of_comps_eq rfl h)) fun v hv => ?_
      exact cacheInv_of_comps_eq rfl (ih env _ _ (cacheInv_of_comps_eq rfl h))
    | render =>
      simp only [step]
      refine Res.bind_inv (ih env _ _ (cacheInv_of_comps_eq (by rw [signalGet_state, St.addSubS_comps]) h)) fun v hv => ?_
      exact cacheInv_of_comps_eq rfl
        (ih env _ _ (cacheInv_of_comps_eq (by rw [signalGet_state, St.addSubS_comps]) h))
    | drain =>
      simp only [step]
      by_cases hp : st.pending = 0
      · rw [if_pos hp]; exact h
      · rw [if_neg hp]
        refine Res.bind_inv (ih env .render _ (cacheInv_of_comps_eq rfl h)) fun v hv => ?_
        exact ih env .drain _ (ih env .render _ (cacheInv_of_comps_eq rfl h))

theorem St.push_stack (st : St) (cb : CbId) : (st.push cb).stack = cb :: st.stack := rfl

theorem St.addTrace_stack (st : St) (e : Ev) : (st.addTrace e).stack = st.stack := rfl

theorem St.setCompAt_stack (st : St) (i : Nat) (c : Comp) :
    (st.setCompAt i c).stack = st.stack := rfl

theorem St.popJS_stack (st : St) : st.popJS.stack = (EffectStack.pop st.stack).2 := rfl

theorem Res.bind_okP {p : St × Res} {k : St → Nat → St × Res} (Q : St → Prop)
    (hk : ∀ v w, p.2 = .ok v → (k p.1 v).2 = .ok w → Q (k p.1 v).1) :
    ∀ w, (Res.bind p k).2 = .ok w → Q (Res.bind p k).1 := by
  rcases p with ⟨st1, r⟩
  cases r with
  | ok v => exact fun w hw => hk v w rfl hw
  | exn => intro w hw; simp [Res.bind] at hw
  | out => intro w hw; simp [Res.bind] at hw

/-- On every normal (non-throwing) return, the engine restores the
`EffectStack` to exactly what it was when the call began: every push is
matched by the pop on the same normal path. -/
theorem step_ok_stack (f : Nat) : ∀ (env : Env) (call : Call) (st : St) (w : Nat),
    (step f env call st).2 = .ok w → (step f env call st).1.stack = st.stack := by
  induction f with
  | zero => intro env call st w hw; simp [step] at hw
  | succ f ih =>
    intro env call st w hw
    cases call with
    | eval code =>
      cases code with
      | lit n => rfl
      | getS s =>
        show (signalGet s st).2.stack = st.stack
        rw [signalGet_state]
        exact St.addSubS_stack st s _
      | getC c =>
        simp only [step] at hw ⊢
        exact ih env (.getCmp c) st w hw
      | setS s e =>
        simp only [step] at hw ⊢
        refine Res.bind_okP (fun s2 => s2.stack = st.stack) (fun v w2 hv hw2 => ?_) w hw
        refine Res.bind_okP (fun s2 => s2.stack = st.stack) (fun v2 w3 hv2 hw3 => ?_) w2 hw2
        exact (ih env (.setSig s v) _ v2 hv2).trans (ih env (.eval e) st v hv)
      | seq a b =>
        simp only [step] at hw ⊢
        refine Res.bind_okP (fun s2 => s2.stack = st.stack) (fun v w2 hv hw2 => ?_) w hw
        exact (ih env (.eval b) _ w2 hw2).trans (ih env (.eval a) st v hv)
      | add a b =>
        simp only [step] at hw ⊢
        refine Res.bind_okP (fun s2 => s2.stack = st.stack) (fun v w2 hv hw2 => ?_) w hw
        refine Res.bind_okP (fun s2 => s2.stack = st.stack) (fun v2 w3 hv2 hw3 => ?_) w2 hw2
        exact (ih env (.eval b) _ v2 hv2).trans (ih env (.eval a) st v hv)
      | mul a b =>
        simp only [step] at hw ⊢
        refine Res.bind_okP (fun s2 => s2.stack = st.stack) (fun v w2 hv hw2 => ?_) w hw
        refine Res.bind_okP (fun s2 => s2.stack = st.stack) (fun v2 w3 hv2 hw3 => ?_) w2 hw2
        exact (ih env (.eval b) _ v2 hv2).trans (ih env (.eval a) st v hv)
      | ite0 c t e =>
        simp only [step] at hw ⊢
        refine Res.bind_okP (fun s2 => s2.stack = st.stack) (fun v w2 hv hw2 => ?_) w hw
        by_cases hv0 : v = 0
        · rw [if_pos hv0] at hw2 ⊢
          exact (ih env (.eval t) _ w2 hw2).trans (ih env (.eval c) st v hv)
        · rw [if_neg hv0] at hw2 ⊢
          exact (ih env (.eval e) _ w2 hw2).trans (ih env (.eval c) st v hv)
      | runEff n =>
        simp only [step] at hw ⊢
        exact ih env (.runE (.eff n)) st w hw
      | throwErr => simp [step] at hw
    | getCmp c =>
      simp only [step] at hw ⊢
      by_cases hs : (st.comp c).stale = false
      · rw [if_pos hs]
        exact St.addSubC_stack _ c _
      · rw [if_neg hs] at hw ⊢
        refine Res.bind_okP (fun s2 => s2.stack = st.stack) (fun v w2 hv hw2 => ?_) w hw
        have h1 := ih env (.eval (env.compBody c)) _ v hv
        simp only [St.addSubC_stack, St.setCompAt_stack, St.popJS_stack, h1,
          St.addTrace_stack, St.push_stack, EffectStack.pop]
    | setSig s v =>
      simp only [step] at hw ⊢
      exact ih env _ _ w hw
    | invoke cb =>
      simp only [step] at hw ⊢
      cases cb with
      | eff n =>
        refine Res.bind_okP (fun s2 => s2.stack = st.stack) (fun v w2 hv hw2 => ?_) w hw
        exact ih env _ _ v hv
      | mark c =>
        exact ih env _ _ w hw
      | renderApp =>
        by_cases hf : (st.addTrace (.invoke .renderApp)).firstRender
        · rw [if_pos hf] at hw ⊢
          refine Res.bind_okP (fun s2 => s2.stack = st.stack) (fun v w2 hv hw2 => ?_) w hw
          exact ih env .render _ v hv
        · rw [if_neg hf] at hw ⊢
          rfl
    | notify r i =>
      simp only [step] at hw ⊢
      by_cases hi : i < (subsOf st r).length
      · rw [dif_pos hi] at hw ⊢
        refine Res.bind_okP (fun s2 => s2.stack = st.stack) (fun v w2 hv hw2 => ?_) w hw
        exact (ih env _ _ w2 hw2).trans (ih env _ _ v hv)
      · rw [dif_neg hi]
    | runE cb =>
      simp only [step] at hw ⊢
      refine Res.bind_okP (fun s2 => s2.stack = st.stack) (fun v w2 hv hw2 => ?_) w hw
      have h1 := ih env (.invoke cb) _ v hv
      simp only [St.popJS_stack, h1, St.push_stack, EffectStack.pop]
    | render =>
      simp only [step] at hw ⊢
      refine Res.bind_okP (fun s2 => s2.stack = st.stack) (fun v w2 hv hw2 => ?_) w hw
      show (step f env (Call.getCmp env.doubleId) (signalGet env.countId st).2).1.stack = st.stack
      rw [ih env _ _ v hv, signalGet_state]
      exact St.addSubS_stack st env.countId _
    | drain =>
      simp only [step] at hw ⊢
      by_cases hp : st.pending = 0
      · rw [if_pos hp]
      · rw [if_neg hp] at hw ⊢
        refine Res.bind_okP (fun s2 => s2.stack = st.stack) (fun v w2 hv hw2 => ?_) w hw
        exact (ih env .drain _ w2 hw2).trans (ih env .render _ v hv)

theorem subsOf_addTrace (st : St) (e : Ev) (r : CellRef) :
    subsOf (st.addTrace e) r = subsOf st r := by
  cases r <;> rfl

/-- Invoking an effect callback whose body is a bare literal appends its
invocation event and changes nothing else. -/
theorem invoke_lit (f : Nat) (env : Env) (n k : Nat) (st : St)
    (hb : env.effBody n = Code.lit k) (hf : 2 ≤ f) :
    step f env (.invoke (.eff n)) st = (st.addTrace (.invoke (.eff n)), .ok 0) := by
  obtain ⟨g, rfl⟩ : ∃ g, f = g + 2 := ⟨f - 2, by omega⟩
  simp [step, hb, Res.bind]

/-- When no callback in a cell's subscriber list mutates any state (every
subscriber is an effect callback with a literal body), the notification
loop started at index `i` invokes exactly the subscribers from index `i`
on, in insertion order, once each. -/
theorem notify_live_inorder (f : Nat) :
    ∀ (env : Env) (r : CellRef) (st : St) (i : Nat),
    (∀ cb ∈ subsOf st r, ∃ n k, cb = CbId.eff n ∧ env.effBody n = Code.lit k) →
    (subsOf st r).length - i + 3 ≤ f →
    step f env (.notify r i) st =
      ({ st with trace := st.trace ++ ((subsOf st r).drop i).map Ev.invoke }, .ok 0) := by
  induction f with
  | zero => intro env r st i hb hf; omega
  | succ f ih =>
    intro env r st i hb hf
    simp only [step]
    by_cases hi : i < (subsOf st r).length
    · rw [dif_pos hi]
      obtain ⟨n, k, hcb, hbk⟩ := hb _ (List.get_mem _ _ hi)
      rw [hcb, invoke_lit f env n k st hbk (by omega)]
      show step f env (.notify r (i + 1)) (st.addTrace (.invoke (.eff n))) = _
      rw [ih env r _ (i + 1) (by rw [subsOf_addTrace]; exact hb)
        (by rw [subsOf_addTrace]; omega)]
      rw [subsOf_addTrace]
      simp only [St.addTrace]
      rw [List.append_assoc]
      have hc : Ev.invoke (CbId.eff n) :: ((subsOf st r).drop (i + 1)).map Ev.invoke =
          ((subsOf st r).drop i).map Ev.invoke := by
        rw [← hcb]
        have := List.getElem_cons_drop (subsOf st r) i hi
        calc Ev.invoke ((subsOf st r).get ⟨i, hi⟩) :: ((subsOf st r).drop (i + 1)).map Ev.invoke
            = (((subsOf st r).get ⟨i, hi⟩ :: (subsOf st r).drop (i + 1)).map Ev.invoke) := by
              rw [List.map_cons]
          _ = ((subsOf st r).drop i).map Ev.invoke := by
              rw [List.get_eq_getElem, this]
      rw [List.singleton_append, hc]
    · rw [dif_neg hi]
      have hd : (subsOf st r).drop i = [] := List.drop_eq_nil_of_le (by omega)
      rw [hd]
      simp

theorem St.addSubC_trace (st : St) (i : Nat) (o : Option CbId) :
    (st.addSubC i o).trace = st.trace := by
  cases o <;> rfl

theorem St.comp_setCompAt_self (st : St) (i : Nat) (x : Comp) :
    (st.setCompAt i x).comp i = if i < st.comps.length then x else st.comp i := by
  unfold St.setCompAt St.comp
  by_cases h : i < st.comps.length
  · rw [if_pos h]
    simp only [List.getD_eq_getElem?_getD, List.getElem?_set_self h]
    rfl
  · rw [if_neg h, List.set_eq_of_length_le (Nat.le_of_not_lt h)]

theorem St.addSubC_comp_stale (st : St) (c : Nat) (o : Option CbId) :
    ((st.addSubC c o).comp c).stale = (st.comp c).stale := by
  cases o with
  | none => rfl
  | some cb =>
    show ((st.setCompAt c ((st.comp c).addSub cb)).comp c).stale = (st.comp c).stale
    rw [St.comp_setCompAt_self]
    by_cases h : c < st.comps.length
    · rw [if_pos h]
      unfold Comp.addSub
      split <;> rfl
    · rw [if_neg h]

theorem St.addSubC_comp_cached (st : St) (c : Nat) (o : Option CbId) :
    ((st.addSubC c o).comp c).cached = (st.comp c).cached := by
  cases o with
  | none => rfl
  | some cb =>
    show ((st.setCompAt c ((st.comp c).addSub cb)).comp c).cached = (st.comp c).cached
    rw [St.comp_setCompAt_self]
    by_cases h : c < st.comps.length
    · rw [if_pos h]
      unfold Comp.addSub
      split <;> rfl
    · rw [if_neg h]

/-- Reading a fresh (non-stale) derived cell returns the cached value and
only registers the current effect as a subscriber: no recomputation, no
trace event, and the cell's cache and flag are untouched. -/
theorem computedGet_fresh (f : Nat) (env : Env) (c : Nat) (st : St)
    (hs : (st.comp c).stale = false) :
    step (f + 1) env (.getCmp c) st =
      (st.addSubC c (EffectStack.peek st.stack), .ok ((st.comp c).cached.getD 0)) := by
  simp [step, hs]

/-- Canonical state of the one-signal/one-derived-cell scenario (`A` at
signal index 0 holding `a` with `D`'s `markStale` subscribed, `D` at
computed index 0 with cache `cach`, staleness `stl`, no subscribers). -/
def shapeA (a : Nat) (cach : Option Nat) (stl : Bool) (tr : List Ev) : St :=
  ⟨[⟨a, [.mark 0]⟩], [⟨cach, stl, []⟩], [], tr, true, 0, ""⟩

theorem shapeA_write (v a : Nat) (cach : Option Nat) (stl : Bool) (tr : List Ev) :
    step actFuel envDouble (.setSig 0 v) (shapeA a cach stl tr) =
      (shapeA v cach true (tr ++ [.invoke (.mark 0)]), .ok 0) := rfl

theorem shapeA_read (a : Nat) (cach : Option Nat) (tr : List Ev) :
    step actFuel envDouble (.getCmp 0) (shapeA a cach true tr) =
      (shapeA a (some (a * 2)) false (tr ++ [.compute 0]), .ok (a * 2)) := rfl

theorem shapeA_setup :
    runActs envDouble [.readC 0] (St.init [0] 1) = shapeA 0 (some 0) false [.compute 0] := by
  decide

theorem writes_shape (vs : List Nat) :
    ∀ (a : Nat) (cach : Option Nat) (stl : Bool) (tr : List Ev),
    runActs envDouble (vs.map (fun v => Act.set 0 v)) (shapeA a cach stl tr) =
      shapeA (vs.getLastD a) cach (if vs = [] then stl else true)
        (tr ++ List.replicate vs.length (Ev.invoke (.mark 0))) := by
  induction vs with
  | nil => intro a cach stl tr; simp [runActs]
  | cons v vs ih =>
    intro a cach stl tr
    show runActs envDouble (Act.set 0 v :: vs.map (fun v => Act.set 0 v)) _ = _
    have h1 : runActs envDouble (Act.set 0 v :: vs.map (fun v => Act.set 0 v))
        (shapeA a cach stl tr) =
        runActs envDouble (vs.map (fun v => Act.set 0 v))
          (shapeA v cach true (tr ++ [.invoke (.mark 0)])) := by
      show runActs envDouble (vs.map (fun v => Act.set 0 v))
          (runAct envDouble (shapeA a cach stl tr) (Act.set 0 v)) = _
      rw [runAct]
      show runActs envDouble _ (step actFuel envDouble (.setSig 0 v) (shapeA a cach stl tr)).1 = _
      rw [shapeA_write]
    rw [h1, ih]
    simp only [List.getLastD_cons, List.length_cons, List.replicate_succ, List.append_assoc,
      List.singleton_append, List.length_map]
    congr 1
    by_cases hvs : vs = [] <;> simp [hvs]

/-! ### Claim theorems -/

/-- C1, counterexample: `effect` has no `try`/`finally`; when the callback
throws during the registration run, the pop is skipped and the registry is
left with the stale top-of-stack entry `.eff 0` (the claim asserts the
stack would be restored to its pre-push state `[]`). -/
theorem effect_no_finally_counterexample :
    (step 10 envThrow (.runE (.eff 0)) (St.init [] 0)).2 = .exn ∧
    (step 10 envThrow (.runE (.eff 0)) (St.init [] 0)).1.stack = [.eff 0] := by
  decide

/-- C1, amended: the pop around a subscriber registration run and around a
derived cell's recomputation happens only on the normal return path — when
the callback returns without throwing, the registry is restored exactly to
its pre-push state; when the callback throws (as in `envThrow`), the pushed
entry (`markStale` here) remains on the stack, because the source uses
plain sequential `push; callback(); pop` with no guaranteed-release
construct. -/
theorem effect_pop_normal_path_only :
    (∀ (f : Nat) (env : Env) (cb : CbId) (st : St) (w : Nat),
      (step f env (.runE cb) st).2 = .ok w →
      (step f env (.runE cb) st).1.stack = st.stack) ∧
    (∀ (f : Nat) (env : Env) (c : Nat) (st : St) (w : Nat),
      (step f env (.getCmp c) st).2 = .ok w →
      (step f env (.getCmp c) st).1.stack = st.stack) ∧
    (step 10 envThrow (.getCmp 0) (St.init [] 1)).2 = .exn ∧
    (step 10 envThrow (.getCmp 0) (St.init [] 1)).1.stack = [.mark 0] :=
  ⟨fun f env cb st w h => step_ok_stack f env (.runE cb) st w h,
   fun f env c st w h => step_ok_stack f env (.getCmp c) st w h,
   by decide, by decide⟩

theorem effect_pop_normal_path_only_witness :
    (step 10 envRead (.runE (.eff 0)) (St.init [1] 0)).2 = .ok 0 ∧
    (step 10 envRead (.runE (.eff 0)) (St.init [1] 0)).1.stack = [] :=
  ⟨by decide,
   effect_pop_normal_path_only.1 10 envRead (.eff 0) (St.init [1] 0) 0 (by decide)⟩

/-- C2, counterexample: notification is not run against a snapshot.  With
signal 0's subscriber set `[.eff 0]` at the start of the pass, callback 0's
re-run registers a brand-new effect callback 1 (which reads signal 0 and so
is appended to the live subscriber set), and the same notification pass
then invokes callback 1 as well: the trace shows `.eff 1` invoked twice —
once by its own registration and once more by the in-progress pass — where
the claim predicts only the registration invocation. -/
theorem notify_snapshot_counterexample :
    (runActs envMid [.runE 0, .set 0 1] (St.init [0] 0)).trace =
      [.invoke (.eff 0), .invoke (.eff 0), .invoke (.eff 1), .invoke (.eff 1)] ∧
    ((runActs envMid [.runE 0, .set 0 1] (St.init [0] 0)).sig 0).subs =
      [.eff 0, .eff 1] := by
  decide

/-- Subscriber list for the in-order notification witness. -/
def stNotify : St := ⟨[⟨3, [.eff 1]⟩], [], [], [], true, 0, ""⟩

theorem notify_live_inorder_witness :
    (∀ cb ∈ subsOf stNotify (.sig 0),
      ∃ n k, cb = CbId.eff n ∧ envCond.effBody n = Code.lit k) ∧
    (subsOf stNotify (.sig 0)).length - 0 + 3 ≤ 10 ∧
    step 10 envCond (.notify (.sig 0) 0) stNotify =
      ({ stNotify with
          trace := stNotify.trace ++ ((subsOf stNotify (.sig 0)).drop 0).map Ev.invoke },
        .ok 0) := by
  have hb : ∀ cb ∈ subsOf stNotify (.sig 0),
      ∃ n k, cb = CbId.eff n ∧ envCond.effBody n = Code.lit k := by
    intro cb hcb
    rw [show subsOf stNotify (.sig 0) = [CbId.eff 1] from rfl, List.mem_singleton] at hcb
    subst hcb
    exact ⟨1, 0, rfl, rfl⟩
  exact ⟨hb, by decide, notify_live_inorder 10 envCond (.sig 0) stNotify 0 hb (by decide)⟩

/-- C3, counterexample: dependencies are not re-discovered on re-runs.
Callback 0 reads signal 0 during registration (subscribing to it); the
re-run triggered by `set 0 1` reads signal 1 for the first time, but the
re-run is a bare call with nothing on the registry, so signal 1's
subscriber set stays empty and a later `set 1 7` does not re-invoke the
callback (the trace has exactly two invocations, the claim demands a
third). -/
theorem rerun_rediscovery_counterexample :
    (runActs envCond [.runE 0, .set 0 1, .set 1 7] (St.init [0, 5] 0)).trace =
      [.invoke (.eff 0), .invoke (.eff 0)] ∧
    ((runActs envCond [.runE 0, .set 0 1] (St.init [0, 5] 0)).sig 1).subs = [] := by
  decide

/-- C3, amended: dependency discovery happens only while some computation
is on the registry stack.  `effect` pushes the callback only for the
initial registration run; a notification re-run invokes the callback bare,
so with an empty registry a signal read returns the value and registers
nothing — hence an effect callback's subscriptions are exactly those
established while it was pushed (its first run), not re-discovered per
invocation. -/
theorem rerun_no_active_computation :
    (∀ (s : Nat) (st : St), st.stack = [] → signalGet s st = ((st.sig s).value, st)) ∧
    ((runActs envCond [.runE 0, .set 0 1, .set 1 7] (St.init [0, 5] 0)).sig 1).subs = [] ∧
    ((runActs envCond [.runE 0, .set 0 1, .set 1 7] (St.init [0, 5] 0)).trace).count
      (Ev.invoke (.eff 0)) = 2 := by
  refine ⟨fun s st h => ?_, by decide, by decide⟩
  unfold signalGet EffectStack.peek
  rw [h]
  rfl

theorem rerun_no_active_computation_witness :
    (St.init [7] 0).stack = [] ∧
    signalGet 0 (St.init [7] 0) = (((St.init [7] 0).sig 0).value, St.init [7] 0) :=
  ⟨by decide, rerun_no_active_computation.1 0 (St.init [7] 0) (by decide)⟩

/-- C4: the derived-cell cache invariant.  At construction the cell is
stale with no cached value; an initial state satisfies the invariant
"`stale = false` implies a cached value is present"; every engine
operation preserves that invariant; a read that finds the flag false
returns the cached value (which the invariant guarantees exists) without
recomputing; and an upstream notification (`markStale`) sets the flag to
true as its first action, before any further notification runs. -/
theorem computed_cache_invariant :
    (Comp.init.stale = true ∧ Comp.init.cached = none) ∧
    (∀ (vals : List Nat) (n : Nat), CacheInv (St.init vals n)) ∧
    (∀ (f : Nat) (env : Env) (call : Call) (st : St),
      CacheInv st → CacheInv (step f env call st).1) ∧
    (∀ (f : Nat) (env : Env) (c : Nat) (st : St), CacheInv st →
      (st.comp c).stale = false →
      ∃ v, (st.comp c).cached = some v ∧
        step (f + 1) env (.getCmp c) st =
          (st.addSubC c (EffectStack.peek st.stack), .ok v)) ∧
    (∀ (f : Nat) (env : Env) (c : Nat) (st : St),
      step (f + 1) env (.invoke (.mark c)) st =
        step f env (.notify (.comp c) 0) ((st.addTrace (.invoke (.mark c))).markStaleAt c)) := by
  refine ⟨⟨rfl, rfl⟩, ?_, fun f => step_cacheInv f, ?_, fun f env c st => rfl⟩
  · intro vals n cmp hc hs
    have h1 : cmp = Comp.init := List.eq_of_mem_replicate hc
    rw [h1] at hs
    exact absurd hs (by decide)
  · intro f env c st hI hs
    obtain ⟨v, hv⟩ := Option.isSome_iff_exists.mp (cacheInv_comp hI c hs)
    refine ⟨v, hv, ?_⟩
    rw [computedGet_fresh f env c st hs, hv]
    rfl

theorem computed_cache_invariant_witness :
    (CacheInv (shapeA 3 (some 6) false []) ∧
      ∃ v, ((shapeA 3 (some 6) false []).comp 0).cached = some v ∧
        step 5 envDouble (.getCmp 0) (shapeA 3 (some 6) false []) =
          ((shapeA 3 (some 6) false []).addSubC 0
              (EffectStack.peek (shapeA 3 (some 6) false []).stack), .ok v)) ∧
    CacheInv (step 7 envDouble (.setSig 0 9) (shapeA 3 (some 6) false [])).1 :=
  ⟨⟨by decide,
    computed_cache_invariant.2.2.2.1 4 envDouble 0 (shapeA 3 (some 6) false [])
      (by decide) (by decide)⟩,
   computed_cache_invariant.2.2.1 7 envDouble (.setSig 0 9) (shapeA 3 (some 6) false [])
     (by decide)⟩

/-- C5: laziness and caching of derived cells.  Constructing a state never
records any invocation or recomputation; a read of a non-stale derived
cell returns the cached value, records no trace event and leaves the
cell's cache and flag untouched (so arbitrarily many consecutive reads
recompute nothing); and in the concrete one-cell scenario two consecutive
reads run the computation function exactly once. -/
theorem computed_lazy_caching :
    (∀ (vals : List Nat) (n : Nat), (St.init vals n).trace = []) ∧
    (∀ (f : Nat) (env : Env) (c : Nat) (st : St), (st.comp c).stale = false →
      step (f + 1) env (.getCmp c) st =
        (st.addSubC c (EffectStack.peek st.stack), .ok ((st.comp c).cached.getD 0)) ∧
      (st.addSubC c (EffectStack.peek st.stack)).trace = st.trace ∧
      ((st.addSubC c (EffectStack.peek st.stack)).comp c).stale = false ∧
      ((st.addSubC c (EffectStack.peek st.stack)).comp c).cached = (st.comp c).cached) ∧
    (runActs envDouble [.readC 0, .readC 0] (St.init [0] 1)).trace = [.compute 0] := by
  refine ⟨fun vals n => rfl, fun f env c st hs => ?_, by decide⟩
  refine ⟨computedGet_fresh f env c st hs, St.addSubC_trace st c _, ?_,
    St.addSubC_comp_cached st c _⟩
  rw [St.addSubC_comp_stale]
  exact hs

theorem computed_lazy_caching_witness :
    ((shapeA 2 (some 4) false []).comp 0).stale = false ∧
    step 3 envDouble (.getCmp 0) (shapeA 2 (some 4) false []) =
      ((shapeA 2 (some 4) false []).addSubC 0
          (EffectStack.peek (shapeA 2 (some 4) false []).stack),
        .ok (((shapeA 2 (some 4) false []).comp 0).cached.getD 0)) :=
  ⟨by decide, (computed_lazy_caching.2.1 2 envDouble 0 (shapeA 2 (some 4) false [])
    (by decide)).1⟩

/-- C6: cached-then-invalidated, not accumulated.  In the scenario of a
derived cell `D` (computed 0, `signal0 * 2`) over cell `A` (signal 0),
after an initial read of `D`, any non-empty sequence of writes to `A`
followed by one read of `D` yields exactly two runs of the computation
function in total (the initial read plus exactly one recomputation — not
one per write), and the final cache holds the value derived from the last
written value. -/
theorem computed_invalidate_once (vs : List Nat) (hne : vs ≠ []) :
    ((runActs envDouble ([Act.readC 0] ++ vs.map (fun v => Act.set 0 v) ++ [Act.readC 0])
        (St.init [0] 1)).trace).count (Ev.compute 0) = 2 ∧
    (runActs envDouble ([Act.readC 0] ++ vs.map (fun v => Act.set 0 v) ++ [Act.readC 0])
        (St.init [0] 1)).comp 0 = ⟨some (vs.getLastD 0 * 2), false, []⟩ := by
  have h1 : runActs envDouble
      ([Act.readC 0] ++ vs.map (fun v => Act.set 0 v) ++ [Act.readC 0]) (St.init [0] 1) =
      shapeA (vs.getLastD 0) (some (vs.getLastD 0 * 2)) false
        (([Ev.compute 0] ++ List.replicate vs.length (Ev.invoke (.mark 0))) ++
          [Ev.compute 0]) := by
    unfold runActs
    rw [List.foldl_append, List.foldl_append]
    have e1 : List.foldl (runAct envDouble) (St.init [0] 1) [Act.readC 0] =
        shapeA 0 (some 0) false [Ev.compute 0] := shapeA_setup
    rw [e1]
    have e2 := writes_shape vs 0 (some 0) false [Ev.compute 0]
    unfold runActs at e2
    rw [e2, if_neg hne]
    show (step actFuel envDouble (.getCmp 0)
      (shapeA (vs.getLastD 0) (some 0) true
        ([Ev.compute 0] ++ List.replicate vs.length (Ev.invoke (.mark 0))))).1 = _
    rw [shapeA_read]
  rw [h1]
  constructor
  · show (([Ev.compute 0] ++ List.replicate vs.length (Ev.invoke (.mark 0))) ++
      [Ev.compute 0]).count (Ev.compute 0) = 2
    rw [List.count_append, List.count_append, List.count_replicate]
    simp
  · rfl

theorem computed_invalidate_once_witness :
    ([5, 5] : List Nat) ≠ [] ∧
    ((runActs envDouble
        ([Act.readC 0] ++ ([5, 5] : List Nat).map (fun v => Act.set 0 v) ++ [Act.readC 0])
        (St.init [0] 1)).trace).count (Ev.compute 0) = 2 :=
  ⟨by decide, (computed_invalidate_once [5, 5] (by decide)).1⟩

/-- C7: the first render is synchronous and subsequent renders are
deferred.  Immediately after `createApp` the mount target holds the output
rendered from the initial state; a write to `count` leaves the mount
target untouched while queueing render microtasks (two of them: one via
`renderApp` in `count`'s subscriber set and one via `double`'s `markStale`
notifying `renderApp`); draining the microtask queue renders the
fully-settled state. -/
theorem render_first_sync_then_microtask :
    (runActs envDouble [.bindApp] (St.init [0] 1)).dom = "Count is 0 and double is 0" ∧
    (runActs envDouble [.bindApp, .set 0 1] (St.init [0] 1)).dom =
      "Count is 0 and double is 0" ∧
    (runActs envDouble [.bindApp, .set 0 1] (St.init [0] 1)).pending = 2 ∧
    (runActs envDouble [.bindApp, .set 0 1, .drain] (St.init [0] 1)).dom =
      "Count is 1 and double is 2" ∧
    (runActs envDouble [.bindApp, .set 0 1, .drain] (St.init [0] 1)).pending = 0 := by
  exact ⟨by decide, by decide, by decide, by decide, by decide⟩

/-- C8, counterexample: `EffectStack.pop` translates `Array.prototype.pop`,
which on the empty registry returns `undefined` and leaves the stack
unchanged — the engine state is untouched and execution continues; nothing
fails loudly. -/
theorem pop_empty_counterexample :
    EffectStack.pop ([] : List CbId) = (none, []) ∧
    (St.init [1] 0).popJS = St.init [1] 0 := by
  decide

/-- C8, amended: popping an empty registry is a silent no-op — it returns
the `undefined` marker (`none`) and leaves the stack empty, while popping a
non-empty registry removes and returns the most recent entry; no
fatal/logic-error condition is raised in either case. -/
theorem pop_empty_silent_noop :
    (EffectStack.pop ([] : List CbId)).1 = none ∧
    (EffectStack.pop ([] : List CbId)).2 = [] ∧
    (∀ (e : CbId) (rest : List CbId), EffectStack.pop (e :: rest) = (some e, rest)) :=
  ⟨rfl, rfl, fun _ _ => rfl⟩

/-- C9: `signal.set` stores the new value and then notifies its subscriber
set unconditionally — the source performs no equality check, so the write
path is definitionally "store, then notify from index 0", and in the
concrete scenario writing the value the cell already holds still
re-invokes the subscriber. -/
theorem set_always_notifies :
    (∀ (f : Nat) (env : Env) (s v : Nat) (st : St),
      step (f + 1) env (.setSig s v) st =
        step f env (.notify (.sig s) 0) (st.setSigAt s { st.sig s with value := v })) ∧
    (runActs envRead [.runE 0, .set 0 1] (St.init [1] 0)).trace =
      [.invoke (.eff 0), .invoke (.eff 0)] ∧
    ((runActs envRead [.runE 0, .set 0 1] (St.init [1] 0)).sig 0).value = 1 :=
  ⟨fun f env s v st => rfl, by decide, by decide⟩

/-- C10: `markStale` propagates staleness eagerly and unconditionally — it
sets the flag and then notifies the derived cell's own subscribers even
when the cell was already stale; in the chain `signal 0 → computed 0 →
computed 1`, two writes to the signal with no intervening read invoke
computed 1's `markStale` twice (the second time with computed 1 already
stale). -/
theorem markStale_eager_propagation :
    (∀ (f : Nat) (env : Env) (c : Nat) (st : St),
      step (f + 1) env (.invoke (.mark c)) st =
        step f env (.notify (.comp c) 0) ((st.addTrace (.invoke (.mark c))).markStaleAt c)) ∧
    (runActs envChain [.readC 1, .set 0 1, .set 0 2] (St.init [0] 2)).trace =
      [.compute 1, .compute 0, .invoke (.mark 0), .invoke (.mark 1),
       .invoke (.mark 0), .invoke (.mark 1)] ∧
    ((runActs envChain [.readC 1, .set 0 1, .set 0 2] (St.init [0] 2)).comp 1).stale =
      true :=
  ⟨fun f env c st => rfl, by decide, by decide⟩
